import Mathlib

/-!
Verification development for the calculator repository.

Shallow embedding notes:
- Python `decimal.Decimal` values are modelled as exact rationals (`ℚ`).
  Decimal's ==, <, abs are value-level operations, so numeric equality of
  Decimals is `ℚ` equality.  The 28-significant-digit context rounding of
  Decimal arithmetic is not modelled; no claim below depends on it.
- `pow(float(a), float(b))` and `pow(float(a), 1/float(b))` go through the
  host's binary floating point; they are kept abstract as a pair of
  unconstrained functions (`FloatFns`).  Both `operations.py` and
  `calculation.py` call the very same expressions, which is all the claims
  about them need.
- Exceptions are modelled with `Except`; the mutable `Calculator` object is
  modelled by explicit state passing (`CalculatorState`), and a method that
  both raises and mutates returns the pair (outcome, post state).
- The classes `Modulus`, `IntegerDivision`, `PercentageCalculation`,
  `AbsoluteDifference` and the module `app/calculator_memento.py` are code of
  the repository that is not present under `src/` (its tests in
  `tests/test_operations.py`, the REPL command list and the imports in
  `app/calculator.py` reference them); they are modelled from the spec where
  marked below.
-/

namespace MidCalc

/-- Exception taxonomy from `app/exceptions.py`: the two error classes the
claims mention, each carrying its message. -/
inductive CalcError where
  | validationError (msg : String)
  | operationError (msg : String)
deriving DecidableEq

instance {ε α : Type} [DecidableEq ε] [DecidableEq α] : DecidableEq (Except ε α) := fun x y =>
  match x, y with
  | .ok a, .ok b =>
      if h : a = b then isTrue (by rw [h]) else isFalse (by intro hh; injection hh; contradiction)
  | .ok _, .error _ => isFalse (by intro hh; injection hh)
  | .error _, .ok _ => isFalse (by intro hh; injection hh)
  | .error a, .error b =>
      if h : a = b then isTrue (by rw [h]) else isFalse (by intro hh; injection hh; contradiction)

/-- Abstract model of the two float-routed expressions in the source:
`fpow a b` stands for `Decimal(pow(float(a), float(b)))` and `froot a b`
stands for `Decimal(pow(float(a), 1 / float(b)))`.  They are deterministic
functions of their arguments, which is the only property the code guarantees
about them. -/
structure FloatFns where
  fpow : ℚ → ℚ → ℚ
  froot : ℚ → ℚ → ℚ

/-- Truncation toward zero, the rounding used by Python `Decimal.__floordiv__`
and `Decimal.__mod__` (the "integer part of the true quotient"). -/
def ratTrunc (q : ℚ) : ℤ :=
  if 0 ≤ q then ⌊q⌋ else ⌈q⌉

/-- Python `Decimal` floor-division `x // y`: the true quotient truncated
toward zero (not the mathematical floor). -/
def decFloorDiv (x y : ℚ) : ℚ :=
  (ratTrunc (x / y) : ℚ)

/-- Python `Decimal` remainder `x % y`: `x - y * (x // y)`, so the sign
follows the dividend. -/
def decMod (x y : ℚ) : ℚ :=
  x - y * (ratTrunc (x / y) : ℚ)

/-- One calculation record, from the dataclass in `app/calculation.py`.
Timestamps are abstracted to a natural number tag. -/
structure Calculation where
  operation : String
  operand1 : ℚ
  operand2 : ℚ
  result : ℚ
  timestamp : ℕ
deriving DecidableEq

/-- `Calculation.calculate` from `app/calculation.py` lines 40-78: dispatch on
the operation name through the `operations` dictionary, raising
`OperationError` on a zero divisor, a negative exponent, an invalid root, or
an unknown name. -/
def calculate (ff : FloatFns) (operation : String) (x y : ℚ) : Except CalcError ℚ :=
  match operation with
  | "Addition" => .ok (x + y)
  | "Subtraction" => .ok (x - y)
  | "Multiplication" => .ok (x * y)
  | "Division" =>
      if y ≠ 0 then .ok (x / y)
      else .error (.operationError "Division by zero is not allowed")
  | "Power" =>
      if 0 ≤ y then .ok (ff.fpow x y)
      else .error (.operationError "Negative exponents are not supported")
  | "Root" =>
      if 0 ≤ x ∧ y ≠ 0 then .ok (ff.froot x y)
      else .error (.operationError
        (if y = 0 then "Zero root is undefined"
         else "Cannot calculate root of negative number"))
  | "Modulus" =>
      if y ≠ 0 then .ok (decMod x y)
      else .error (.operationError "Division by zero is not allowed")
  | "IntegerDivision" =>
      if y ≠ 0 then .ok (decFloorDiv x y)
      else .error (.operationError "Division by zero is not allowed")
  | "PercentageCalculation" =>
      if y ≠ 0 then .ok (x / y * 100)
      else .error (.operationError "Division by zero is not allowed")
  | "AbsoluteDifference" => .ok |x - y|
  | op => .error (.operationError ("Unknown operation: " ++ op))

/-- Construction of a `Calculation` (`__post_init__`): the result is computed
eagerly by `calculate`; construction fails when `calculate` raises. -/
def mkCalculation (ff : FloatFns) (operation : String) (a b : ℚ) (ts : ℕ) :
    Except CalcError Calculation :=
  (calculate ff operation a b).map fun r =>
    { operation := operation, operand1 := a, operand2 := b, result := r, timestamp := ts }

/-- `Calculation.__eq__`: equality over (operation, operand1, operand2,
result); the timestamp is ignored. -/
def calcEq (c d : Calculation) : Prop :=
  c.operation = d.operation ∧ c.operand1 = d.operand1 ∧
    c.operand2 = d.operand2 ∧ c.result = d.result

instance (c d : Calculation) : Decidable (calcEq c d) := by
  unfold calcEq; infer_instance

/-- One row of the persisted CSV (`save_history` writes the five columns
operation, operand1, operand2, result, timestamp).  Each numeric field holds
the exact value denoted by the stored decimal string (`str` of a finite
Decimal is value-faithful, and the float64 re-parse of a numeral depends
only on its value); the lossy pandas re-parsing of `load_history` is applied
at load time, see `pandasCell` and `fromRow`. -/
structure HistoryRow where
  operation : String
  operand1 : ℚ
  operand2 : ℚ
  result : ℚ
  timestamp : ℕ
deriving DecidableEq

/-- Projection of a `Calculation` to a stored row (`Calculator.save_history`
lines 232-238 / `Calculation.to_dict`). -/
def toRow (c : Calculation) : HistoryRow :=
  { operation := c.operation, operand1 := c.operand1, operand2 := c.operand2,
    result := c.result, timestamp := c.timestamp }

/-- Floor of log2 of a natural number, by structural recursion on a fuel
argument (instantiated with the number itself, which bounds the number of
halvings). -/
def natLog2 : ℕ → ℕ → ℕ
  | 0, _ => 0
  | fuel + 1, n => if 2 ≤ n then natLog2 fuel (n / 2) + 1 else 0

/-- Floor of the binary logarithm of a positive rational `q`: the unique `k`
with `2 ^ k ≤ q < 2 ^ (k + 1)`, computed from the logarithms of numerator
and denominator with a one-step correction. -/
def ratLog2Floor (q : ℚ) : ℤ :=
  if (2 : ℚ) ^ ((natLog2 q.num.natAbs q.num.natAbs : ℤ) - (natLog2 q.den q.den : ℤ)) ≤ q
  then (natLog2 q.num.natAbs q.num.natAbs : ℤ) - (natLog2 q.den q.den : ℤ)
  else (natLog2 q.num.natAbs q.num.natAbs : ℤ) - (natLog2 q.den q.den : ℤ) - 1

/-- Nearest integer to a rational with ties to even, the IEEE-754 default
rounding. -/
def ratRoundHalfEven (q : ℚ) : ℤ :=
  if q - ⌊q⌋ < 1 / 2 then ⌊q⌋
  else if 1 / 2 < q - ⌊q⌋ then ⌊q⌋ + 1
  else if 2 ∣ ⌊q⌋ then ⌊q⌋ else ⌊q⌋ + 1

/-- Value of the IEEE-754 binary64 double nearest to `q`: the significand is
rounded to 53 bits, ties to even.  The exponent range is unbounded here —
overflow to infinity and subnormal underflow at the extremes of the
configured 1e999 input range are not modelled. -/
def floatOfRat (q : ℚ) : ℚ :=
  if q = 0 then 0
  else if q < 0 then
    -((ratRoundHalfEven (-q * (2 : ℚ) ^ (52 - ratLog2Floor (-q))) : ℚ) *
      (2 : ℚ) ^ (ratLog2Floor (-q) - 52))
  else
    (ratRoundHalfEven (q * (2 : ℚ) ^ (52 - ratLog2Floor q)) : ℚ) *
      (2 : ℚ) ^ (ratLog2Floor q - 52)

/-- One numeric cell of `pd.read_csv` output as seen by `Decimal(...)` in
`from_dict`: a column whose cells are all integer literals is typed int64
and converts exactly, while any fractional or exponent part makes the column
float64, whose cells convert to the exact binary expansion of the nearest
double (`Decimal(float)`).  The integer fast path is modelled per cell: an
integer below 2^53 inside a float64-typed mixed column also re-parses
exactly, and larger integers inside such a column are idealized as exact. -/
def pandasCell (v : ℚ) : ℚ :=
  if v.den = 1 then v else floatOfRat v

/-- `Calculation.from_dict` as invoked by `load_history`: the operand cells
arrive through the pandas numeric re-parse (`pandasCell`), the result is
recomputed independently from them, and the stored timestamp is restored.  A
mismatch with the stored result cell only logs a warning (a side channel not
modelled); the recomputed result is kept. -/
def fromRow (ff : FloatFns) (d : HistoryRow) : Except CalcError Calculation :=
  (mkCalculation ff d.operation (pandasCell d.operand1) (pandasCell d.operand2)
      d.timestamp).mapError
    fun e => match e with
      | .validationError m => .operationError ("Invalid calculation data: " ++ m)
      | .operationError m => .operationError ("Invalid calculation data: " ++ m)

/-- Strategy classes of `app/operations.py`.  The first six are defined in
`src/app/operations.py`; the last four are code of the repository missing
from `src/` (imported by `tests/test_operations.py` and reachable from the
REPL), modelled from the spec's operation catalog. -/
inductive OpClass where
  | addition
  | subtraction
  | multiplication
  | division
  | power
  | root
  | modulus
  | integerDivision
  | percentageCalculation
  | absoluteDifference
deriving DecidableEq

/-- `Operation.__str__`: the class name, which is also the key used by
`Calculation.calculate`. -/
def opName : OpClass → String
  | .addition => "Addition"
  | .subtraction => "Subtraction"
  | .multiplication => "Multiplication"
  | .division => "Division"
  | .power => "Power"
  | .root => "Root"
  | .modulus => "Modulus"
  | .integerDivision => "IntegerDivision"
  | .percentageCalculation => "PercentageCalculation"
  | .absoluteDifference => "AbsoluteDifference"

/-- `validate_operands` of each strategy.  Division/Power/Root checks are from
`src/app/operations.py`.  Modelled from the spec: the rejection conditions of
the missing `Modulus`, `IntegerDivision` and `PercentageCalculation` classes
(spec §4.1 table, all `b == 0`), with the exact messages pinned by
`tests/test_operations.py`. -/
def validateOperands : OpClass → ℚ → ℚ → Except CalcError Unit
  | .division, _, b =>
      if b = 0 then .error (.validationError "Division by zero is not allowed") else .ok ()
  | .power, _, b =>
      if b < 0 then .error (.validationError "Negative exponents not supported") else .ok ()
  | .root, a, b =>
      if a < 0 then .error (.validationError "Cannot calculate root of negative number")
      else if b = 0 then .error (.validationError "Zero root is undefined")
      else .ok ()
  | .modulus, _, b =>
      if b = 0 then .error (.validationError "Modulus by zero is not allowed") else .ok ()
  | .integerDivision, _, b =>
      if b = 0 then .error (.validationError "Integer division by zero is not allowed") else .ok ()
  | .percentageCalculation, _, b =>
      if b = 0 then .error (.validationError "Cannot calculate percentage with zero base") else .ok ()
  | _, _, _ => .ok ()

/-- `execute` of each strategy: validate, then apply the formula.  The first
six bodies are from `src/app/operations.py`.  Modelled from the spec: the
formulas of the four missing classes (spec §4.1 table — `a mod b` with the
truncated-toward-zero convention, integer division as implemented by Decimal
`//` which truncates toward zero per the repository's tests, `(a/b)×100`,
`|a−b|`). -/
def execOp (ff : FloatFns) (op : OpClass) (a b : ℚ) : Except CalcError ℚ := do
  validateOperands op a b
  match op with
  | .addition => pure (a + b)
  | .subtraction => pure (a - b)
  | .multiplication => pure (a * b)
  | .division => pure (a / b)
  | .power => pure (ff.fpow a b)
  | .root => pure (ff.froot a b)
  | .modulus => pure (decMod a b)
  | .integerDivision => pure (decFloorDiv a b)
  | .percentageCalculation => pure (a / b * 100)
  | .absoluteDifference => pure |a - b|

/-- `OperationFactory._operations`: the registry seeding.  The first six
entries are `src/app/operations.py` lines 282-289.  Modelled from the spec:
the registrations of the four missing operations (spec §4.2 says the registry
is seeded with the ten built-ins; the command names are those accepted by the
REPL and asserted by `tests/test_operations.py`). -/
def factoryOperations : List (String × OpClass) :=
  [("add", .addition), ("subtract", .subtraction), ("multiply", .multiplication),
   ("divide", .division), ("power", .power), ("root", .root),
   ("modulus", .modulus), ("int_divide", .integerDivision),
   ("percent", .percentageCalculation), ("abs_diff", .absoluteDifference)]

/-- ASCII lowercasing of one character (`str.lower` on the ASCII operation
names used here). -/
def lowerChar (c : Char) : Char :=
  if 65 ≤ c.toNat ∧ c.toNat ≤ 90 then Char.ofNat (c.toNat + 32) else c

/-- ASCII lowercasing of a string (`operation_type.lower()`). -/
def strLower (s : String) : String :=
  ⟨s.data.map lowerChar⟩

/-- `OperationFactory.create_operation`: case-insensitive lookup, raising
`ValueError` (modelled as a plain message) for an unknown name. -/
def createOperation (name : String) : Except String OpClass :=
  match (factoryOperations.find? fun p => p.1 == strLower name) with
  | some p => .ok p.2
  | none => .error ("Unknown operation: " ++ name)

/-- Configuration fields the core consumes (`app/calculator_config.py`). -/
structure CalculatorConfig where
  maxHistorySize : ℕ
  maxInputValue : ℚ
  autoSave : Bool

/-- `InputValidator.validate_number` at the value level (lines 49-69 of
`app/input_validators.py`): reject magnitudes strictly above the configured
maximum, return the (value-preserving) normalized number. -/
def validateNumber (cfg : CalculatorConfig) (v : ℚ) : Except CalcError ℚ :=
  if |v| > cfg.maxInputValue then
    .error (.validationError "Value exceeds maximum allowed")
  else .ok v

/-- An observer's `update` method (`app/history.py`): invoked with the new
calculation, it may raise. -/
def Observer : Type := Calculation → Except CalcError Unit

/-- Mutable state of a `Calculator` object (`app/calculator.py` `__init__`).
A memento is an independent copy of the history list; `CalculatorMemento`
itself lives in `app/calculator_memento.py`, which is missing from `src/` —
modelled from the spec (§3 Snapshot: "an opaque, independent copy of the
History sequence"), hence a stack element is simply a list of calculations.
The stacks keep their top element at the head.  `file` models the persisted
CSV: `none` when no history file exists, `some rows` otherwise (a header-only
file is `some []`). -/
structure CalculatorState where
  history : List Calculation
  undoStack : List (List Calculation)
  redoStack : List (List Calculation)
  operationStrategy : Option OpClass
  observers : List Observer
  file : Option (List HistoryRow)

/-- `Calculator.notify_observers`: call every observer's `update` in
registration order; the first raising observer aborts the loop. -/
def notifyObservers (obs : List Observer) (c : Calculation) : Except CalcError Unit :=
  match obs with
  | [] => .ok ()
  | o :: rest => do
      o c
      notifyObservers rest c

/-- Exception policy of `perform_operation` lines 209-216: a
`ValidationError` is re-raised unchanged, any other error is wrapped into
`OperationError("Operation failed: ...")`. -/
def wrapError : CalcError → CalcError
  | .validationError m => .validationError m
  | .operationError m => .operationError ("Operation failed: " ++ m)

/-- `Calculator.set_operation`. -/
def setOperation (s : CalculatorState) (op : OpClass) : CalculatorState :=
  { s with operationStrategy := some op }

/-- `Calculator.add_observer`. -/
def addObserver (s : CalculatorState) (o : Observer) : CalculatorState :=
  { s with observers := s.observers ++ [o] }

/-- State of the calculator after the mutation block of `perform_operation`
(lines 189-202): pre-mutation history pushed onto the undo stack, redo stack
cleared, the new calculation appended, and the oldest entry popped when the
bound is exceeded. -/
def performPost (cfg : CalculatorConfig) (s : CalculatorState) (c : Calculation) : CalculatorState :=
  { s with
    undoStack := s.history :: s.undoStack,
    redoStack := [],
    history :=
      if (s.history ++ [c]).length > cfg.maxHistorySize
      then (s.history ++ [c]).drop 1
      else s.history ++ [c] }

/-- `Calculator.perform_operation` (lines 152-216): validate both inputs,
run the strategy, construct the `Calculation` (which recomputes the result),
then push the pre-mutation history onto the undo stack, clear the redo stack,
append the record, evict the oldest entry when over the bound, and notify
observers.  The returned pair is (raised-or-returned outcome, state of the
object afterwards); note that an observer failure propagates only after the
history mutations already happened. -/
def performOperation (ff : FloatFns) (cfg : CalculatorConfig) (s : CalculatorState)
    (a b : ℚ) (ts : ℕ) : Except CalcError ℚ × CalculatorState :=
  match s.operationStrategy with
  | none => (.error (.operationError "No operation set"), s)
  | some strat =>
    match validateNumber cfg a with
    | .error e => (.error (wrapError e), s)
    | .ok va =>
      match validateNumber cfg b with
      | .error e => (.error (wrapError e), s)
      | .ok vb =>
        match execOp ff strat va vb with
        | .error e => (.error (wrapError e), s)
        | .ok result =>
          match mkCalculation ff (opName strat) va vb ts with
          | .error e => (.error (wrapError e), s)
          | .ok c =>
            match notifyObservers (performPost cfg s c).observers c with
            | .error e => (.error (wrapError e), performPost cfg s c)
            | .ok _ => (.ok result, performPost cfg s c)

/-- `Calculator.undo` (lines 331-349): pop a memento, push the current
history onto the redo stack, restore the popped history. -/
def undo (s : CalculatorState) : Bool × CalculatorState :=
  match s.undoStack with
  | [] => (false, s)
  | m :: rest =>
      (true, { s with undoStack := rest, redoStack := s.history :: s.redoStack, history := m })

/-- `Calculator.redo` (lines 351-369): symmetric to `undo`. -/
def redo (s : CalculatorState) : Bool × CalculatorState :=
  match s.redoStack with
  | [] => (false, s)
  | m :: rest =>
      (true, { s with redoStack := rest, undoStack := s.history :: s.undoStack, history := m })

/-- `Calculator.clear_history`. -/
def clearHistory (s : CalculatorState) : CalculatorState :=
  { s with history := [], undoStack := [], redoStack := [] }

/-- `Calculator.save_history` (lines 218-254): project every calculation to
a row and write the file; an empty history writes a header-only file. -/
def saveHistory (s : CalculatorState) : CalculatorState :=
  { s with file := some (s.history.map toRow) }

/-- Reconstruction of all rows (the list comprehension in `load_history`):
the whole list is built before `self.history` is assigned, so one bad row
fails the load with history untouched. -/
def fromRowList (ff : FloatFns) : List HistoryRow → Except CalcError (List Calculation)
  | [] => .ok []
  | r :: rs => do
      let c ← fromRow ff r
      let l ← fromRowList ff rs
      pure (c :: l)

/-- `Calculator.load_history` (lines 256-288): a missing file or an empty
data frame leaves the history unchanged; otherwise the reconstructed list
replaces the history outright.  A failing row raises `OperationError` and
leaves the state unchanged. -/
def loadHistory (ff : FloatFns) (s : CalculatorState) : Except CalcError Unit × CalculatorState :=
  match s.file with
  | none => (.ok (), s)
  | some rows =>
    match rows with
    | [] => (.ok (), s)
    | _ :: _ =>
      match fromRowList ff rows with
      | .error e =>
          (.error (match e with
            | .validationError m => .operationError ("Failed to load history: " ++ m)
            | .operationError m => .operationError ("Failed to load history: " ++ m)), s)
      | .ok l => (.ok (), { s with history := l })

/-- State of a freshly constructed `Calculator` with no pre-existing history
file: empty history, empty stacks, no strategy, no observers. -/
def initialState : CalculatorState :=
  { history := [], undoStack := [], redoStack := [],
    operationStrategy := none, observers := [], file := none }

/-- One public call on the calculator, as a relation between the state before
and the state after (failed calls included, since a raised exception leaves
whatever the method had already written to `self`). -/
inductive Step (ff : FloatFns) (cfg : CalculatorConfig) : CalculatorState → CalculatorState → Prop where
  | perform (s : CalculatorState) (a b : ℚ) (ts : ℕ) :
      Step ff cfg s (performOperation ff cfg s a b ts).2
  | undo (s : CalculatorState) : Step ff cfg s (MidCalc.undo s).2
  | redo (s : CalculatorState) : Step ff cfg s (MidCalc.redo s).2
  | clear (s : CalculatorState) : Step ff cfg s (clearHistory s)
  | save (s : CalculatorState) : Step ff cfg s (saveHistory s)
  | load (s : CalculatorState) : Step ff cfg s (loadHistory ff s).2
  | setOp (s : CalculatorState) (op : OpClass) : Step ff cfg s (setOperation s op)
  | addObs (s : CalculatorState) (o : Observer) : Step ff cfg s (addObserver s o)

/-- States reachable from a fresh calculator by any sequence of calls. -/
inductive Reachable (ff : FloatFns) (cfg : CalculatorConfig) : CalculatorState → Prop where
  | init : Reachable ff cfg initialState
  | step {s s' : CalculatorState} :
      Reachable ff cfg s → Step ff cfg s s' → Reachable ff cfg s'

/-- Representation-level model of one `Decimal` for the input-validator
claim: coefficient and exponent, value `m * 10 ^ e`.  (`Decimal(str(v))` in
`validate_number` parses the text into exactly this data.) -/
structure DecRep where
  m : ℤ
  e : ℤ
deriving DecidableEq

/-- Numeric value of a representation. -/
def DecRep.val (d : DecRep) : ℚ :=
  (d.m : ℚ) * (10 : ℚ) ^ d.e

/-- Coefficient/exponent loop of `Decimal.normalize`: strip factors of ten
from the coefficient into the exponent.  The fuel argument (instantiated with
`m.natAbs`, always sufficient) keeps the recursion structural. -/
def stripZeros : ℕ → ℤ → ℤ → ℤ × ℤ
  | 0, m, e => (m, e)
  | fuel + 1, m, e =>
      if m ≠ 0 ∧ (10 : ℤ) ∣ m then stripZeros fuel (m / 10) (e + 1) else (m, e)

/-- `Decimal.normalize`: remove trailing zeros (zero normalizes to plain 0). -/
def DecRep.normalize (d : DecRep) : DecRep :=
  if d.m = 0 then { m := 0, e := 0 }
  else
    let p := stripZeros d.m.natAbs d.m d.e
    { m := p.1, e := p.2 }

/-- `InputValidator.validate_number` at the representation level: reject a
magnitude strictly above the configured maximum, return the normalized
number. -/
def validateNumberRep (cfg : CalculatorConfig) (v : DecRep) : Except CalcError DecRep :=
  if |v.val| > cfg.maxInputValue then
    .error (.validationError "Value exceeds maximum allowed")
  else .ok v.normalize

/-- Substring test used to state the "message contains ... " claims. -/
def charsStartWith : List Char → List Char → Bool
  | [], _ => true
  | _ :: _, [] => false
  | a :: as, b :: bs => a == b && charsStartWith as bs

/-- Containment of one character list in another. -/
def charsContain (needle : List Char) : List Char → Bool
  | [] => needle.isEmpty
  | c :: rest => charsStartWith needle (c :: rest) || charsContain needle rest

/-- Containment of one string in another. -/
def strContains (needle hay : String) : Bool :=
  charsContain needle.data hay.data

/-- Concrete instantiation of the abstract float functions, used by the
witness theorems (their values never matter to any proof). -/
def ff0 : FloatFns :=
  { fpow := fun _ _ => 0, froot := fun _ _ => 0 }

/-- Concrete configuration for witnesses: the defaults of
`app/calculator_config.py` (max history 1000, max input 1e999 shrunk to a
concrete large rational, auto-save on). -/
def cfg0 : CalculatorConfig :=
  { maxHistorySize := 1000, maxInputValue := 10 ^ 6, autoSave := true }

/-- Observer used by counterexamples: an `update` method that always
raises. -/
def badObs : Observer := fun _ => .error (.operationError "observer failed")

/-- State used by counterexamples: fresh calculator with the Addition
strategy selected and one always-raising observer registered. -/
def sObs : CalculatorState :=
  { history := [], undoStack := [], redoStack := [],
    operationStrategy := some .addition, observers := [badObs], file := none }

/-- State used by witnesses: fresh calculator with the Addition strategy
selected and no observers. -/
def sAdd : CalculatorState :=
  { history := [], undoStack := [], redoStack := [],
    operationStrategy := some .addition, observers := [], file := none }

/-- The calculation produced by `perform_operation(2, 3)` with Addition. -/
def calcW : Calculation :=
  { operation := "Addition", operand1 := 2, operand2 := 3, result := 5, timestamp := 0 }

/-- `sAdd` after a successful `perform_operation(2, 3)`. -/
def sAddPost : CalculatorState :=
  { history := [calcW], undoStack := [[]], redoStack := [],
    operationStrategy := some .addition, observers := [], file := none }

/-- State used by the C8 witnesses: fresh calculator with the (modelled)
PercentageCalculation strategy selected. -/
def sPct : CalculatorState :=
  { history := [], undoStack := [], redoStack := [],
    operationStrategy := some .percentageCalculation, observers := [], file := none }

/-- Exact value of the decimal numeral 0.1, written as a reduced fraction so
that its numerator and denominator are definitionally available. -/
def qTenth : ℚ := ⟨1, 10, by decide, by decide⟩

/-- Exact value of the decimal numeral 0.2. -/
def qFifth : ℚ := ⟨1, 5, by decide, by decide⟩

/-- Exact value of the decimal numeral 0.3. -/
def qThreeTenths : ℚ := ⟨3, 10, by decide, by decide⟩

/-- The valid calculation `Addition(0.1, 0.2) = 0.3` (its result is exactly
what `calculate` produces from its operands). -/
def calcRT : Calculation :=
  { operation := "Addition", operand1 := qTenth, operand2 := qFifth,
    result := qThreeTenths, timestamp := 0 }

/-- Calculator whose in-memory history is `[Addition(0.1, 0.2)]`. -/
def sRT : CalculatorState :=
  { history := [calcRT], undoStack := [], redoStack := [],
    operationStrategy := none, observers := [], file := none }

/-- Validation message raised on a zero second operand by each of the four
zero-rejecting strategies (Division from `src/app/operations.py`; the other
three pinned by `tests/test_operations.py` for the modelled classes). -/
def zeroDivisorMsg : OpClass → String
  | .division => "Division by zero is not allowed"
  | .modulus => "Modulus by zero is not allowed"
  | .integerDivision => "Integer division by zero is not allowed"
  | .percentageCalculation => "Cannot calculate percentage with zero base"
  | _ => ""

/-- Size invariant carried through every reachable state: the live history,
every snapshot on either stack, and the persisted file all stay within the
configured bound. -/
def HistInv (cfg : CalculatorConfig) (s : CalculatorState) : Prop :=
  s.history.length ≤ cfg.maxHistorySize ∧
  (∀ h ∈ s.undoStack, List.length h ≤ cfg.maxHistorySize) ∧
  (∀ h ∈ s.redoStack, List.length h ≤ cfg.maxHistorySize) ∧
  (∀ rows, s.file = some rows → rows.length ≤ cfg.maxHistorySize)

lemma perform_state_cases (ff : FloatFns) (cfg : CalculatorConfig) (s : CalculatorState)
    (a b : ℚ) (ts : ℕ) :
    (performOperation ff cfg s a b ts).2 = s ∨
      ∃ c, (performOperation ff cfg s a b ts).2 = performPost cfg s c := by
  unfold performOperation
  split
  · exact Or.inl rfl
  split
  · exact Or.inl rfl
  split
  · exact Or.inl rfl
  split
  · exact Or.inl rfl
  split
  · exact Or.inl rfl
  rename_i strat hstrat va hva vb hvb result hex c hmk
  split
  · exact Or.inr ⟨c, rfl⟩
  · exact Or.inr ⟨c, rfl⟩

lemma perform_ok_state (ff : FloatFns) (cfg : CalculatorConfig) (s : CalculatorState)
    (a b : ℚ) (ts : ℕ) (r : ℚ)
    (h : (performOperation ff cfg s a b ts).1 = .ok r) :
    ∃ c, (performOperation ff cfg s a b ts).2 = performPost cfg s c := by
  unfold performOperation at h ⊢
  split at h
  · exact absurd h (by simp)
  split at h
  · exact absurd h (by simp)
  split at h
  · exact absurd h (by simp)
  split at h
  · exact absurd h (by simp)
  split at h
  · exact absurd h (by simp)
  rename_i c hmk
  split
  · exact ⟨c, rfl⟩
  · exact ⟨c, rfl⟩

lemma notifyObservers_ok (obs : List Observer) (c : Calculation)
    (h : ∀ o ∈ obs, ∀ d, o d = .ok ()) : notifyObservers obs c = .ok () := by
  induction obs with
  | nil => rfl
  | cons o rest ih =>
    have ho := h o (List.mem_cons_self o rest) c
    simp only [notifyObservers, ho, Except.bind, Bind.bind]
    exact ih fun o' ho' d => h o' (List.mem_cons_of_mem o ho') d

/-- C1: after every successful `perform_operation(a, b)`, `undo()` returns
true and restores `self.history` to exactly the sequence it held immediately
before the call, and `redo()` right after that `undo()` returns true and
restores `self.history` to exactly the sequence it held immediately after
the call. -/
theorem undo_redo_after_perform (ff : FloatFns) (cfg : CalculatorConfig)
    (s : CalculatorState) (a b : ℚ) (ts : ℕ) (r : ℚ) (s' : CalculatorState)
    (h : performOperation ff cfg s a b ts = (.ok r, s')) :
    (undo s').1 = true ∧ (undo s').2.history = s.history ∧
    (redo (undo s').2).1 = true ∧ (redo (undo s').2).2.history = s'.history := by
  have h1 : (performOperation ff cfg s a b ts).1 = .ok r := by rw [h]
  have h2 : (performOperation ff cfg s a b ts).2 = s' := by rw [h]
  obtain ⟨c, hc⟩ := perform_ok_state ff cfg s a b ts r h1
  rw [h2] at hc
  subst hc
  simp [undo, redo, performPost]

/-- Witness for C1 at the concrete call `perform_operation(2, 3)` with the
Addition strategy on a fresh calculator. -/
theorem undo_redo_after_perform_witness :
    (undo sAddPost).1 = true ∧ (undo sAddPost).2.history = sAdd.history ∧
    (redo (undo sAddPost).2).1 = true ∧ (redo (undo sAddPost).2).2.history = sAddPost.history := by
  refine undo_redo_after_perform ff0 cfg0 sAdd 2 3 0 5 sAddPost ?_
  norm_num [performOperation, sAdd, sAddPost, cfg0, validateNumber, execOp, validateOperands,
    mkCalculation, calculate, opName, notifyObservers, wrapError, performPost, calcW,
    Except.map, Except.bind, Bind.bind, Pure.pure, Except.pure]

/-- C2 counterexample: on a fresh calculator with Addition selected and one
observer whose `update` raises, `perform_operation(2, 3)` raises — yet the
history is no longer what it was before the call, refuting the claim that
any error leaves history, undo stack and redo stack untouched. -/
theorem perform_observer_error_mutates :
    (performOperation ff0 cfg0 sObs 2 3 0).1 =
      .error (.operationError "Operation failed: observer failed") ∧
    (performOperation ff0 cfg0 sObs 2 3 0).2.history ≠ sObs.history := by
  refine ⟨?_, ?_⟩ <;>
    norm_num [performOperation, sObs, cfg0, validateNumber, execOp, validateOperands,
      mkCalculation, calculate, opName, notifyObservers, badObs, wrapError, performPost,
      Except.map, Except.bind, Bind.bind, Pure.pure, Except.pure]
  decide

/-- C2 amended: `perform_operation` never mutates state partially.  The
post-call state is either exactly the pre-call state or exactly the fully
mutated state (snapshot pushed, redo stack cleared, record appended with
trimming); and every error raised before observer notification — no
operation set, input validation of either operand, strategy execution, or
`Calculation` construction — returns with the state exactly as it was,
whatever observers are registered.  When the mutation has happened, an error
raised by an observer's `update` propagates (wrapped) with the mutation
retained, and if no observer raises the call returns the strategy's
result. -/
theorem perform_failure_atomicity (ff : FloatFns) (cfg : CalculatorConfig)
    (s : CalculatorState) (a b : ℚ) (ts : ℕ) :
    ((performOperation ff cfg s a b ts).2 = s ∨
      ∃ c, (performOperation ff cfg s a b ts).2 = performPost cfg s c) ∧
    (s.operationStrategy = none →
      performOperation ff cfg s a b ts = (.error (.operationError "No operation set"), s)) ∧
    (∀ strat, s.operationStrategy = some strat →
      (∀ e, validateNumber cfg a = .error e →
        performOperation ff cfg s a b ts = (.error (wrapError e), s)) ∧
      (∀ va, validateNumber cfg a = .ok va →
        (∀ e, validateNumber cfg b = .error e →
          performOperation ff cfg s a b ts = (.error (wrapError e), s)) ∧
        (∀ vb, validateNumber cfg b = .ok vb →
          (∀ e, execOp ff strat va vb = .error e →
            performOperation ff cfg s a b ts = (.error (wrapError e), s)) ∧
          (∀ r, execOp ff strat va vb = .ok r →
            (∀ e, mkCalculation ff (opName strat) va vb ts = .error e →
              performOperation ff cfg s a b ts = (.error (wrapError e), s)) ∧
            (∀ c, mkCalculation ff (opName strat) va vb ts = .ok c →
              (performOperation ff cfg s a b ts).2 = performPost cfg s c ∧
              (∀ e, notifyObservers (performPost cfg s c).observers c = .error e →
                (performOperation ff cfg s a b ts).1 = .error (wrapError e)) ∧
              (notifyObservers (performPost cfg s c).observers c = .ok () →
                (performOperation ff cfg s a b ts).1 = .ok r)))))) := by
  refine ⟨perform_state_cases ff cfg s a b ts, ?_, ?_⟩
  · intro hnone
    simp only [performOperation, hnone]
  · intro strat hs
    refine ⟨?_, ?_⟩
    · intro e he
      simp only [performOperation, hs, he]
    · intro va hva
      refine ⟨?_, ?_⟩
      · intro e he
        simp only [performOperation, hs, hva, he]
      · intro vb hvb
        refine ⟨?_, ?_⟩
        · intro e he
          simp only [performOperation, hs, hva, hvb, he]
        · intro r hr
          refine ⟨?_, ?_⟩
          · intro e he
            simp only [performOperation, hs, hva, hvb, hr, he]
          · intro c hc
            refine ⟨?_, ?_, ?_⟩
            · simp only [performOperation, hs, hva, hvb, hr, hc]
              cases notifyObservers (performPost cfg s c).observers c <;> rfl
            · intro e he
              simp only [performOperation, hs, hva, hvb, hr, hc, he]
            · intro hn
              simp only [performOperation, hs, hva, hvb, hr, hc, hn]

/-- Witness for the amended C2: an input-validation failure (first operand
above the configured maximum) on a calculator that has an always-raising
observer registered still leaves the state exactly unchanged. -/
theorem perform_failure_atomicity_witness :
    performOperation ff0 cfg0 sObs ((10 : ℚ) ^ 7) 3 0 =
      (.error (wrapError (.validationError "Value exceeds maximum allowed")), sObs) := by
  have hval : validateNumber cfg0 ((10 : ℚ) ^ 7) =
      .error (.validationError "Value exceeds maximum allowed") := by
    have h : |(10 : ℚ) ^ 7| > cfg0.maxInputValue := by norm_num [cfg0]
    unfold validateNumber
    rw [if_pos h]
  exact (((perform_failure_atomicity ff0 cfg0 sObs ((10 : ℚ) ^ 7) 3 0).2.2
    .addition rfl).1) _ hval

lemma fromRow_toRow (ff : FloatFns) (c : Calculation)
    (h : calculate ff c.operation c.operand1 c.operand2 = .ok c.result)
    (h1 : pandasCell c.operand1 = c.operand1) (h2 : pandasCell c.operand2 = c.operand2) :
    fromRow ff (toRow c) = .ok c := by
  simp [fromRow, toRow, mkCalculation, h1, h2, h, Except.map, Except.mapError]

lemma fromRowList_map_toRow (ff : FloatFns) (H : List Calculation)
    (h : ∀ c ∈ H, calculate ff c.operation c.operand1 c.operand2 = .ok c.result)
    (hcells : ∀ c ∈ H, pandasCell c.operand1 = c.operand1 ∧ pandasCell c.operand2 = c.operand2) :
    fromRowList ff (H.map toRow) = .ok H := by
  induction H with
  | nil => rfl
  | cons c cs ih =>
    have hmem := hcells c (List.mem_cons_self c cs)
    have hc := fromRow_toRow ff c (h c (List.mem_cons_self c cs)) hmem.1 hmem.2
    have hcs := ih (fun d hd => h d (List.mem_cons_of_mem c hd))
      (fun d hd => hcells d (List.mem_cons_of_mem c hd))
    simp [fromRowList, hc, hcs, Except.bind, Bind.bind, Pure.pure, Except.pure]

lemma calcEq_refl (c : Calculation) : calcEq c c := ⟨rfl, rfl, rfl, rfl⟩

lemma fromRowList_length (ff : FloatFns) :
    ∀ (rows : List HistoryRow) (l : List Calculation),
      fromRowList ff rows = .ok l → l.length = rows.length := by
  intro rows
  induction rows with
  | nil => intro l hl; cases hl; rfl
  | cons r rs ih =>
    intro l hl
    unfold fromRowList at hl
    cases hr : fromRow ff r with
    | error e => rw [hr] at hl; cases hl
    | ok c =>
      rw [hr] at hl
      cases hrs : fromRowList ff rs with
      | error e =>
        rw [hrs] at hl
        cases hl
      | ok l' =>
        rw [hrs] at hl
        cases hl
        simp [ih l' hrs]

lemma histInv_step (ff : FloatFns) (cfg : CalculatorConfig) (s s' : CalculatorState)
    (hInv : HistInv cfg s) (hstep : Step ff cfg s s') : HistInv cfg s' := by
  obtain ⟨h1, h2, h3, h4⟩ := hInv
  cases hstep with
  | perform a b ts =>
    rcases perform_state_cases ff cfg s a b ts with hcase | ⟨c, hcase⟩
    · rw [hcase]; exact ⟨h1, h2, h3, h4⟩
    rw [hcase]
    refine ⟨?_, ?_, ?_, ?_⟩
    · simp only [performPost]
      split
      · rename_i hgt
        simp only [List.length_drop, List.length_append, List.length_singleton]
        omega
      · rename_i hle
        simp only [List.length_append, List.length_singleton] at hle ⊢
        omega
    · intro h hh
      simp only [performPost, List.mem_cons] at hh
      rcases hh with hh | hh
      · rw [hh]; exact h1
      · exact h2 h hh
    · intro h hh
      simp only [performPost, List.not_mem_nil] at hh
    · intro rows hrows
      exact h4 rows hrows
  | undo =>
    unfold MidCalc.undo
    split
    · exact ⟨h1, h2, h3, h4⟩
    rename_i m rest hstack
    refine ⟨h2 m (by rw [hstack]; exact List.mem_cons_self m rest), ?_, ?_, h4⟩
    · intro h hh
      exact h2 h (by rw [hstack]; exact List.mem_cons_of_mem m hh)
    · intro h hh
      rcases List.mem_cons.1 hh with hh | hh
      · rw [hh]; exact h1
      · exact h3 h hh
  | redo =>
    unfold MidCalc.redo
    split
    · exact ⟨h1, h2, h3, h4⟩
    rename_i m rest hstack
    refine ⟨h3 m (by rw [hstack]; exact List.mem_cons_self m rest), ?_, ?_, h4⟩
    · intro h hh
      rcases List.mem_cons.1 hh with hh | hh
      · rw [hh]; exact h1
      · exact h2 h hh
    · intro h hh
      exact h3 h (by rw [hstack]; exact List.mem_cons_of_mem m hh)
  | clear =>
    exact ⟨Nat.zero_le _, fun h hh => absurd hh (List.not_mem_nil h),
      fun h hh => absurd hh (List.not_mem_nil h), h4⟩
  | save =>
    refine ⟨h1, h2, h3, ?_⟩
    intro rows hrows
    simp only [saveHistory, Option.some.injEq] at hrows
    rw [← hrows]
    simpa using h1
  | load =>
    cases hfile : s.file with
    | none =>
      simp only [loadHistory, hfile]
      exact ⟨h1, h2, h3, h4⟩
    | some rows =>
      cases rows with
      | nil =>
        simp only [loadHistory, hfile]
        exact ⟨h1, h2, h3, h4⟩
      | cons r rs =>
        cases hl : fromRowList ff (r :: rs) with
        | error e =>
          simp only [loadHistory, hfile, hl]
          exact ⟨h1, h2, h3, h4⟩
        | ok l =>
          simp only [loadHistory, hfile, hl]
          refine ⟨?_, h2, h3, ?_⟩
          · rw [show ({ s with history := l, file := some (r :: rs) } : CalculatorState).history = l
                from rfl, fromRowList_length ff (r :: rs) l hl]
            exact h4 (r :: rs) hfile
          · intro rows hrows
            simp only [Option.some.injEq] at hrows
            rw [← hrows]
            exact h4 (r :: rs) hfile
  | setOp op => exact ⟨h1, h2, h3, h4⟩
  | addObs o => exact ⟨h1, h2, h3, h4⟩

lemma histInv_reachable (ff : FloatFns) (cfg : CalculatorConfig) (s : CalculatorState)
    (h : Reachable ff cfg s) : HistInv cfg s := by
  induction h with
  | init =>
    refine ⟨Nat.zero_le _, ?_, ?_, ?_⟩
    · intro h hh; exact absurd hh (List.not_mem_nil h)
    · intro h hh; exact absurd hh (List.not_mem_nil h)
    · intro rows hrows; cases hrows
  | step hr hs ih => exact histInv_step _ _ _ _ ih hs

/-- C4: in every state reachable by any sequence of calls, the history never
exceeds the configured maximum size, and a successful `perform_operation`
that would exceed the bound evicts exactly the first-appended (oldest)
entry: the new history is `old ++ [new]` with its first element dropped when
over the bound. -/
theorem history_bounded (ff : FloatFns) (cfg : CalculatorConfig) (s : CalculatorState)
    (h : Reachable ff cfg s) :
    s.history.length ≤ cfg.maxHistorySize ∧
    ∀ (a b : ℚ) (ts : ℕ) (r : ℚ) (s' : CalculatorState),
      performOperation ff cfg s a b ts = (.ok r, s') →
      ∃ c, s'.history =
        if (s.history ++ [c]).length > cfg.maxHistorySize
        then (s.history ++ [c]).drop 1 else s.history ++ [c] := by
  refine ⟨(histInv_reachable ff cfg s h).1, ?_⟩
  intro a b ts r s' hperf
  have h1 : (performOperation ff cfg s a b ts).1 = .ok r := by rw [hperf]
  obtain ⟨c, hc⟩ := perform_ok_state ff cfg s a b ts r h1
  have h2 : (performOperation ff cfg s a b ts).2 = s' := by rw [hperf]
  rw [h2] at hc
  exact ⟨c, by rw [hc]; rfl⟩

/-- Witness for C4 at the initial state. -/
theorem history_bounded_witness :
    initialState.history.length ≤ cfg0.maxHistorySize :=
  (history_bounded ff0 cfg0 initialState Reachable.init).1

/-- C5: the operation registry is seeded with all ten built-in operations —
for each of the ten names, `create_operation` succeeds and returns the
corresponding strategy, whose `execute` implements the corresponding
arithmetic (under that strategy's preconditions).  The last four
registrations and strategies are modelled from the spec, their classes being
absent from `src/`. -/
theorem builtin_operations_registered (ff : FloatFns) :
    createOperation "add" = .ok .addition ∧
    (∀ a b : ℚ, execOp ff .addition a b = .ok (a + b)) ∧
    createOperation "subtract" = .ok .subtraction ∧
    (∀ a b : ℚ, execOp ff .subtraction a b = .ok (a - b)) ∧
    createOperation "multiply" = .ok .multiplication ∧
    (∀ a b : ℚ, execOp ff .multiplication a b = .ok (a * b)) ∧
    createOperation "divide" = .ok .division ∧
    (∀ a b : ℚ, b ≠ 0 → execOp ff .division a b = .ok (a / b)) ∧
    createOperation "power" = .ok .power ∧
    (∀ a b : ℚ, 0 ≤ b → execOp ff .power a b = .ok (ff.fpow a b)) ∧
    createOperation "root" = .ok .root ∧
    (∀ a b : ℚ, 0 ≤ a → b ≠ 0 → execOp ff .root a b = .ok (ff.froot a b)) ∧
    createOperation "modulus" = .ok .modulus ∧
    (∀ a b : ℚ, b ≠ 0 → execOp ff .modulus a b = .ok (decMod a b)) ∧
    createOperation "int_divide" = .ok .integerDivision ∧
    (∀ a b : ℚ, b ≠ 0 → execOp ff .integerDivision a b = .ok (decFloorDiv a b)) ∧
    createOperation "percent" = .ok .percentageCalculation ∧
    (∀ a b : ℚ, b ≠ 0 → execOp ff .percentageCalculation a b = .ok (a / b * 100)) ∧
    createOperation "abs_diff" = .ok .absoluteDifference ∧
    (∀ a b : ℚ, execOp ff .absoluteDifference a b = .ok |a - b|) := by
  refine ⟨rfl, ?_, rfl, ?_, rfl, ?_, rfl, ?_, rfl, ?_, rfl, ?_, rfl, ?_, rfl, ?_, rfl, ?_, rfl, ?_⟩
  · intro a b
    simp [execOp, validateOperands, Except.bind, Bind.bind, Pure.pure, Except.pure]
  · intro a b
    simp [execOp, validateOperands, Except.bind, Bind.bind, Pure.pure, Except.pure]
  · intro a b
    simp [execOp, validateOperands, Except.bind, Bind.bind, Pure.pure, Except.pure]
  · intro a b hb
    simp [execOp, validateOperands, hb, Except.bind, Bind.bind, Pure.pure, Except.pure]
  · intro a b hb
    simp [execOp, validateOperands, not_lt.mpr hb, Except.bind, Bind.bind, Pure.pure, Except.pure]
  · intro a b ha hb
    simp [execOp, validateOperands, not_lt.mpr ha, hb, Except.bind, Bind.bind, Pure.pure,
      Except.pure]
  · intro a b hb
    simp [execOp, validateOperands, hb, Except.bind, Bind.bind, Pure.pure, Except.pure]
  · intro a b hb
    simp [execOp, validateOperands, hb, Except.bind, Bind.bind, Pure.pure, Except.pure]
  · intro a b hb
    simp [execOp, validateOperands, hb, Except.bind, Bind.bind, Pure.pure, Except.pure]
  · intro a b
    simp [execOp, validateOperands, Except.bind, Bind.bind, Pure.pure, Except.pure]

/-- Witness for C5 at the concrete lookup of the Division strategy and the
concrete call `execute(10, 2)`. -/
theorem builtin_operations_registered_witness :
    execOp ff0 OpClass.division 10 2 = Except.ok (10 / 2) :=
  (builtin_operations_registered ff0).2.2.2.2.2.2.2.1 10 2 (by norm_num)

/-- C6 counterexample: `IntegerDivision` on the opposite-sign pair
`(-10, 3)` yields `-3` (Decimal `//` truncates toward zero, as the
repository's own test `negative_dividend` expects), which is not
`floor(-10/3) = -4` — refuting the claim that the operation returns the
floor for opposite-sign operands. -/
theorem intdiv_opposite_signs_not_floor :
    calculate ff0 "IntegerDivision" (-10) 3 = .ok (-3) ∧
    ((-3 : ℚ) ≠ ((⌊((-10 : ℚ)) / 3⌋ : ℤ) : ℚ)) := by
  constructor
  · have h : (⌈(-(10 / 3) : ℚ)⌉ : ℤ) = -3 := by rw [Int.ceil_eq_iff]; norm_num
    norm_num [calculate, decFloorDiv, ratTrunc, h]
  · have hf : (⌊((-10 : ℚ)) / 3⌋ : ℤ) = -4 := by rw [Int.floor_eq_iff]; norm_num
    rw [hf]
    norm_num

/-- C6 amended: for every `b ≠ 0`, `IntegerDivision` returns the true
quotient truncated toward zero — `⌊a/b⌋` when the quotient is nonnegative
and `⌈a/b⌉` otherwise — and its result equals `floor(a/b)` exactly when the
quotient is nonnegative or an exact integer (so it is floor + 1 on
opposite-sign inexact quotients). -/
theorem intdiv_truncates (ff : FloatFns) (a b : ℚ) (hb : b ≠ 0) :
    calculate ff "IntegerDivision" a b =
      .ok (if 0 ≤ a / b then ((⌊a / b⌋ : ℤ) : ℚ) else ((⌈a / b⌉ : ℤ) : ℚ)) ∧
    (calculate ff "IntegerDivision" a b = .ok ((⌊a / b⌋ : ℤ) : ℚ) ↔
      0 ≤ a / b ∨ ((⌊a / b⌋ : ℤ) : ℚ) = a / b) := by
  constructor
  · simp [calculate, hb, decFloorDiv, ratTrunc, apply_ite]
    split_ifs with h
    · intro h2; exact absurd h2 (not_lt.mpr h)
    · intro h2; exact absurd h2 h
  · by_cases hq : 0 ≤ a / b
    · simp [calculate, hb, decFloorDiv, ratTrunc, hq]
    · have hcl : calculate ff "IntegerDivision" a b = .ok ((⌈a / b⌉ : ℤ) : ℚ) := by
        simp [calculate, hb, decFloorDiv, ratTrunc, hq]
      rw [hcl]
      constructor
      · intro h
        have h2 : ((⌈a / b⌉ : ℤ) : ℚ) = ((⌊a / b⌋ : ℤ) : ℚ) := by
          injection h
        refine Or.inr ?_
        have hfle : ((⌊a / b⌋ : ℤ) : ℚ) ≤ a / b := Int.floor_le _
        have hlec : a / b ≤ ((⌈a / b⌉ : ℤ) : ℚ) := Int.le_ceil _
        rw [h2] at hlec
        exact le_antisymm hfle hlec
      · intro h
        rcases h with h | h
        · exact absurd h hq
        · have hcf : (⌈a / b⌉ : ℤ) = ⌊a / b⌋ :=
            (congrArg Int.ceil h).symm.trans (Int.ceil_intCast ⌊a / b⌋)
          rw [hcf]

/-- Witness for the amended C6 at the pair `(-10, 3)`. -/
theorem intdiv_truncates_witness :
    calculate ff0 "IntegerDivision" (-10) 3 =
      .ok (if 0 ≤ ((-10 : ℚ)) / 3 then ((⌊((-10 : ℚ)) / 3⌋ : ℤ) : ℚ)
           else ((⌈((-10 : ℚ)) / 3⌉ : ℤ) : ℚ)) :=
  (intdiv_truncates ff0 (-10) 3 (by norm_num)).1

/-- C8 counterexample: `Percentage(10, 0)` on a fresh calculator raises a
`ValidationError`, but its message — "Cannot calculate percentage with zero
base", the message pinned by the repository's tests for the modelled class —
does not contain "by zero", refuting the claim that all four zero-divisor
failures carry a "...by zero..." message. -/
theorem percentage_zero_message_lacks_by_zero :
    (performOperation ff0 cfg0 sPct 10 0 0).1 =
      .error (.validationError "Cannot calculate percentage with zero base") ∧
    strContains "by zero" "Cannot calculate percentage with zero base" = false := by
  refine ⟨?_, by decide⟩
  norm_num [performOperation, sPct, cfg0, validateNumber, execOp, validateOperands,
    wrapError, Except.bind, Bind.bind]

/-- C8 amended: with any of Division, Modulus, IntegerDivision or
PercentageCalculation selected, `perform_operation(a, 0)` fails with a
`ValidationError` carrying that strategy's zero-divisor message and leaves
the state untouched (no Calculation is produced or appended); the messages
of Division, Modulus and IntegerDivision contain "by zero", while
PercentageCalculation's contains "zero" but not "by zero".  (The three
non-Division strategies are modelled from the spec, messages pinned by the
repository's tests.) -/
theorem zero_divisor_rejected (ff : FloatFns) (cfg : CalculatorConfig) (s : CalculatorState)
    (a : ℚ) (ts : ℕ) (op : OpClass)
    (hop : op = .division ∨ op = .modulus ∨ op = .integerDivision ∨
      op = .percentageCalculation)
    (hs : s.operationStrategy = some op)
    (ha : |a| ≤ cfg.maxInputValue) (h0 : 0 ≤ cfg.maxInputValue) :
    performOperation ff cfg s a 0 ts = (.error (.validationError (zeroDivisorMsg op)), s) ∧
    strContains "zero" (zeroDivisorMsg op) = true ∧
    (strContains "by zero" (zeroDivisorMsg op) = true ↔ op ≠ .percentageCalculation) := by
  have hva : validateNumber cfg a = .ok a := by simp [validateNumber, not_lt.mpr ha]
  have hv0 : validateNumber cfg 0 = .ok 0 := by simp [validateNumber, not_lt.mpr h0]
  rcases hop with h | h | h | h <;> subst h <;>
    refine ⟨?_, by decide, by decide⟩ <;>
    simp [performOperation, hs, hva, hv0, execOp, validateOperands, wrapError,
      zeroDivisorMsg, Except.bind, Bind.bind]

/-- Witness for the amended C8 at `Percentage(10, 0)` on a fresh
calculator. -/
theorem zero_divisor_rejected_witness :
    performOperation ff0 cfg0 sPct 10 0 0 =
      (.error (.validationError (zeroDivisorMsg .percentageCalculation)), sPct) :=
  (zero_divisor_rejected ff0 cfg0 sPct 10 0 .percentageCalculation
    (Or.inr (Or.inr (Or.inr rfl))) rfl (by norm_num [cfg0]) (by norm_num [cfg0])).1

/-- C9: for each of the six registered strategies, whenever `execute`
succeeds the value returned to the caller equals the result that
`Calculation.calculate` recomputes independently by dispatching on the
strategy's display name — so the value returned by `perform_operation`
matches the `result` field of the appended record. -/
theorem strategy_matches_calculation (ff : FloatFns) (op : OpClass) (a b r : ℚ)
    (hop : op = .addition ∨ op = .subtraction ∨ op = .multiplication ∨
      op = .division ∨ op = .power ∨ op = .root)
    (h : execOp ff op a b = .ok r) :
    calculate ff (opName op) a b = .ok r := by
  rcases hop with h1 | h1 | h1 | h1 | h1 | h1 <;> subst h1
  · simp only [execOp, validateOperands, Except.bind, Bind.bind, Pure.pure, Except.pure,
      Except.ok.injEq] at h
    simp [calculate, opName, h]
  · simp only [execOp, validateOperands, Except.bind, Bind.bind, Pure.pure, Except.pure,
      Except.ok.injEq] at h
    simp [calculate, opName, h]
  · simp only [execOp, validateOperands, Except.bind, Bind.bind, Pure.pure, Except.pure,
      Except.ok.injEq] at h
    simp [calculate, opName, h]
  · by_cases hb : b = 0
    · simp [execOp, validateOperands, hb, Except.bind, Bind.bind] at h
    · simp only [execOp, validateOperands, hb, if_neg, if_false, Except.bind, Bind.bind,
        Pure.pure, Except.pure, Except.ok.injEq] at h
      simp [calculate, opName, hb, h]
  · by_cases hb : b < 0
    · simp [execOp, validateOperands, hb, Except.bind, Bind.bind] at h
    · simp only [execOp, validateOperands, hb, if_neg, if_false, Except.bind, Bind.bind,
        Pure.pure, Except.pure, Except.ok.injEq] at h
      simp [calculate, opName, not_lt.mp hb, h]
  · by_cases ha : a < 0
    · simp [execOp, validateOperands, ha, Except.bind, Bind.bind] at h
    · by_cases hb : b = 0
      · simp [execOp, validateOperands, ha, hb, Except.bind, Bind.bind] at h
      · simp only [execOp, validateOperands, ha, hb, if_neg, if_false, Except.bind, Bind.bind,
          Pure.pure, Except.pure, Except.ok.injEq] at h
        simp [calculate, opName, not_lt.mp ha, hb, h]

/-- Witness for C9 at the Addition strategy on the call `execute(2, 3)`. -/
theorem strategy_matches_calculation_witness :
    calculate ff0 (opName OpClass.addition) 2 3 = .ok 5 := by
  refine strategy_matches_calculation ff0 .addition 2 3 5 (Or.inl rfl) ?_
  norm_num [execOp, validateOperands, Except.bind, Bind.bind, Pure.pure, Except.pure]

lemma stripZeros_spec :
    ∀ (fuel : ℕ) (m e : ℤ), m ≠ 0 → m.natAbs ≤ fuel →
      (stripZeros fuel m e).1 ≠ 0 ∧ ¬ (10 : ℤ) ∣ (stripZeros fuel m e).1 ∧
      ((stripZeros fuel m e).1 : ℚ) * (10 : ℚ) ^ (stripZeros fuel m e).2 =
        (m : ℚ) * (10 : ℚ) ^ e := by
  intro fuel
  induction fuel with
  | zero =>
    intro m e hm habs
    exact absurd (Int.natAbs_eq_zero.mp (Nat.le_zero.mp habs)) hm
  | succ n ih =>
    intro m e hm habs
    by_cases hc : m ≠ 0 ∧ (10 : ℤ) ∣ m
    · obtain ⟨k, hk⟩ := hc.2
      have hk10 : m / 10 = k := by
        rw [hk]
        exact Int.mul_ediv_cancel_left k (by norm_num)
      have hkne : k ≠ 0 := by
        rintro rfl
        rw [mul_zero] at hk
        exact hm hk
      have hkabs : k.natAbs ≤ n := by
        have h1 : m.natAbs = 10 * k.natAbs := by
          rw [hk, Int.natAbs_mul]
          rfl
        have h2 : 1 ≤ k.natAbs := Nat.one_le_iff_ne_zero.mpr (Int.natAbs_ne_zero.mpr hkne)
        omega
      have hstep : stripZeros (n + 1) m e = stripZeros n (m / 10) (e + 1) := by
        simp only [stripZeros, if_pos hc]
      rw [hstep, hk10]
      obtain ⟨r1, r2, r3⟩ := ih k (e + 1) hkne hkabs
      refine ⟨r1, r2, ?_⟩
      rw [r3, hk]
      push_cast
      rw [zpow_add_one₀ (by norm_num : (10 : ℚ) ≠ 0)]
      ring
    · have hstep : stripZeros (n + 1) m e = (m, e) := by
        simp only [stripZeros, if_neg hc]
      rw [hstep]
      exact ⟨hm, fun hd => hc ⟨hm, hd⟩, rfl⟩

lemma normalize_val (v : DecRep) : v.normalize.val = v.val := by
  unfold DecRep.normalize
  by_cases hm : v.m = 0
  · simp [hm, DecRep.val]
  · obtain ⟨-, -, r3⟩ := stripZeros_spec v.m.natAbs v.m v.e hm le_rfl
    simp only [hm, if_neg, DecRep.val, not_false_iff]
    exact r3

lemma normalize_coeff (v : DecRep) :
    v.normalize.m = 0 ∨ ¬ (10 : ℤ) ∣ v.normalize.m := by
  unfold DecRep.normalize
  by_cases hm : v.m = 0
  · simp [hm]
  · obtain ⟨-, r2, -⟩ := stripZeros_spec v.m.natAbs v.m v.e hm le_rfl
    simp only [hm, if_neg, not_false_iff]
    exact Or.inr r2

/-- C10: `validate_number` accepts a parsed decimal exactly when its
magnitude is at most the configured maximum (only strictly greater values
are rejected, so a value equal to the maximum is accepted), and on success
returns the normalized form of the input: same numeric value, trailing
zeros stripped from the coefficient. -/
theorem validate_number_boundary (cfg : CalculatorConfig) (v : DecRep) :
    (|v.val| > cfg.maxInputValue →
      validateNumberRep cfg v = .error (.validationError "Value exceeds maximum allowed")) ∧
    (|v.val| ≤ cfg.maxInputValue →
      validateNumberRep cfg v = .ok v.normalize ∧
      v.normalize.val = v.val ∧
      (v.normalize.m = 0 ∨ ¬ (10 : ℤ) ∣ v.normalize.m)) := by
  constructor
  · intro hgt
    simp [validateNumberRep, hgt]
  · intro hle
    exact ⟨by simp [validateNumberRep, not_lt.mpr hle], normalize_val v, normalize_coeff v⟩

/-- Witness for C10 at the in-bound input with coefficient 1200 and exponent
1 (value 12000, normalized to coefficient 12, exponent 3). -/
theorem validate_number_boundary_witness :
    validateNumberRep cfg0 ⟨1200, 1⟩ = .ok (DecRep.normalize ⟨1200, 1⟩) :=
  ((validate_number_boundary cfg0 ⟨1200, 1⟩).2 (by norm_num [DecRep.val, cfg0])).1

end MidCalc
